import Mathlib

/-!
Shallow embedding of `src/rbf/interpolate.py` (classes `RBFInterpolant` and
`NearestRBFInterpolant`, helper `_in_hull`) over exact rational arithmetic.

Arrays become lists of rationals; a float output value is either a number or
the not-a-number sentinel (`RVal.nan`).  Exceptions become `Except Err`.

The module's collaborators live in other modules of the repository that are
not part of the analysed source (`rbf.poly`, `rbf.basis`, `rbf.utils`,
`rbf.linalg`) or in external libraries (numpy, scipy).  They are modelled
from the spec: `powers` is given concretely by the spec's description, the
rest are kept as abstract functions bundled in `Ext` (theorems quantify over
every possible behaviour of those collaborators).
-/

/-- Output value of an interpolant evaluation: a float that is either a
number or the not-a-number sentinel written by the extrapolation mask. -/
inductive RVal where
  | nan : RVal
  | val : ℚ → RVal
deriving DecidableEq

namespace RBF

/-- Errors raised by the module.  The Python code raises `ValueError`s with
distinct messages; the spec names them `ShapeMismatchError` (array shape
validation), `InsufficientDataError` (polynomial order too high for the
number of observations / neighbors) and `ConfigurationError` (SparseRBF
passed to the nearest-neighbor interpolant).  `stepZero` models the
`ValueError` Python's `range` raises on a zero step (chunk_size = 0). -/
inductive Err where
  | shapeMismatch : Err
  | insufficientData : Err
  | config : Err
  | stepZero : Err
deriving DecidableEq

/-- Modelled from the spec: a radial basis function (kernel collaborator,
`rbf.basis`).  `eval eps x y diff` is the kernel evaluated between points
`x` and `y` with shape parameter `eps` and optional derivative order vector
`diff`; `sparse` flags membership in the sparse-support family
(`SparseRBF` subclass), which the Local Interpolant must reject. -/
structure Kernel where
  sparse : Bool
  eval : ℚ → List ℚ → List ℚ → Option (List Nat) → ℚ

/-- Modelled from the spec: the external leaf collaborators of §6 that are
not part of the analysed source, kept abstract.
`mono pt m diff` is one entry of the `mvmonos` monomial matrix (point,
exponent tuple, optional derivative orders); `delaunay hull pt` is the
D ≥ 2 convex-hull membership test (`scipy.spatial.Delaunay` +
`find_simplex ≥ 0`); `psolve K P d z` is `PartitionedSolver(K, P).solve(d, z)`
returning the coefficient pair `(a, b)`; `linsolve A b` is one dense solve of
`np.linalg.solve` (the batched solve is per-target independent, an invariant
the spec states explicitly); `query tree k pt` is the k-nearest-neighbor
index list of the spatial index (`KDTree.query`) for one target point. -/
structure Ext where
  mono : List ℚ → List Nat → Option (List Nat) → ℚ
  delaunay : List (List ℚ) → List ℚ → Bool
  psolve : List (List ℚ) → List (List ℚ) → List ℚ → List ℚ → List ℚ × List ℚ
  linsolve : List (List ℚ) → List ℚ → List ℚ
  query : List (List ℚ) → Nat → List ℚ → List Nat

/-- Number of columns of a list-of-rows matrix (`y.shape[1]` of a
rectangular 2-D array). -/
def cols (y : List (List ℚ)) : Nat := (y.headD []).length

/-- Validity of a 2-D float array of width `D`: every row has length `D`.
`assert_shape(x, (None, D), ...)` passes exactly on such inputs. -/
def isMat (x : List (List ℚ)) (D : Nat) : Bool := x.all (fun r => r.length == D)

/-- Validity of `y` for `assert_shape(y, (None, None), 'y')`: a genuine 2-D
array, i.e. a nonempty rectangular list of rows (an empty list literal turns
into a 1-D array of shape `(0,)` and is rejected). -/
def mat2dOk (y : List (List ℚ)) : Bool := !y.isEmpty && isMat y (cols y)

/-- Dot product of two equal-length vectors (`numpy.dot` on 1-D arrays). -/
def dotq (u v : List ℚ) : ℚ := (List.zipWith (fun a b => a * b) u v).sum

/-- Kernel matrix `phi(A, B, eps=eps, diff=diff)`: one row per point of `A`,
one column per point of `B`. -/
def kermat (phi : Kernel) (eps : ℚ) (A B : List (List ℚ)) (diff : Option (List Nat)) : List (List ℚ) :=
  A.map (fun a => B.map (fun b => phi.eval eps a b diff))

/-- Monomial matrix `mvmonos(pts, pwr, diff=diff)`: one row per point, one
column per exponent tuple. -/
def monmat (ext : Ext) (pts : List (List ℚ)) (pwr : List (List Nat)) (diff : Option (List Nat)) : List (List ℚ) :=
  pts.map (fun p => pwr.map (fun m => ext.mono p m diff))

/-- Adds `v i` to the `i`-th diagonal entry of the `i`-th row of `m`
(`K + scipy.sparse.diags(v)`, and the batched
`K[:, range(k), range(k)] += v`). -/
def addDiag (m : List (List ℚ)) (v : List ℚ) : List (List ℚ) :=
  (m.zip v).enum.map (fun p => p.2.1.enum.map (fun q => if q.1 = p.1 then q.2 + p.2.2 else q.2))

/-- Modelled from the spec: `rbf.poly.powers(order, dim)` enumerates all
non-negative integer `dim`-tuples of exponents with total degree at most
`order`; `monTuples` is its enumeration for a non-negative order. -/
def monTuples : Nat → Nat → List (List Nat)
  | _, 0 => [[]]
  | maxdeg, d + 1 =>
    (List.range (maxdeg + 1)).flatMap (fun e => (monTuples (maxdeg - e) d).map (fun t => e :: t))

/-- Modelled from the spec: the exponent set of the polynomial collaborator;
order `-1` (or any negative order) yields no monomials, otherwise all
`dim`-tuples with total degree at most `order`.  Its length is the monomial
count `M(dim, order)`. -/
def powers (order : Int) (dim : Nat) : List (List Nat) :=
  if order < 0 then [] else monTuples order.toNat dim

/-- Minimum entry of a 2-D array (`np.min(hull)`); `0` on the empty array,
which the callers never produce. -/
def npmin (m : List (List ℚ)) : ℚ :=
  match m.flatten with
  | [] => 0
  | a :: l => l.foldl min a

/-- Maximum entry of a 2-D array (`np.max(hull)`); `0` on the empty array. -/
def npmax (m : List (List ℚ)) : ℚ :=
  match m.flatten with
  | [] => 0
  | a :: l => l.foldl max a

/-- Translation of `_in_hull(p, hull)`: tests which points of `p` lie in the
convex hull of the rows of `hull`.  `dim` is `p.shape[1]`; with fewer than
`dim + 1` hull points every query is outside; for `dim ≥ 2` the (external)
Delaunay triangulation test decides; for one-dimensional points membership
is the closed interval `[np.min(hull), np.max(hull)]` on the first
coordinate (`p[:, 0]`). -/
def in_hull (delaunay : List (List ℚ) → List ℚ → Bool) (p hull : List (List ℚ)) : List Bool :=
  let dim := cols p
  if hull.length ≤ dim then p.map (fun _ => false)
  else if 2 ≤ dim then p.map (fun pt => delaunay hull pt)
  else p.map (fun pt => decide (npmin hull ≤ pt.headD 0 ∧ pt.headD 0 ≤ npmax hull))

/-- Pointwise form of `in_hull` used to state per-entry properties. -/
def pointInHull (delaunay : List (List ℚ) → List ℚ → Bool) (dim : Nat) (hull : List (List ℚ)) (pt : List ℚ) : Bool :=
  if hull.length ≤ dim then false
  else if 2 ≤ dim then delaunay hull pt
  else decide (npmin hull ≤ pt.headD 0 ∧ pt.headD 0 ≤ npmax hull)

/-- Scalar-or-vector `sigma` argument (`np.isscalar(sigma)` dispatch). -/
def SigmaArg : Type := Sum ℚ (List ℚ)

/-- Broadcast of the `sigma` argument to a length-`N` vector: a scalar is
filled (`np.full((N,), sigma)`), a vector is kept as given. -/
def sigmaBroadcast (sigma : SigmaArg) (N : Nat) : List ℚ :=
  match sigma with
  | .inl q => List.replicate N q
  | .inr v => v

/-- Shape validation of the `sigma` argument: a vector must have length `N`
(`assert_shape(sigma, (N,), 'sigma')`); a scalar always passes. -/
def sigmaOk (sigma : SigmaArg) (N : Nat) : Bool :=
  match sigma with
  | .inl _ => true
  | .inr v => v.length == N

/-- Number of iterations of `for start in range(0, stop, step)`: zero for a
negative step (the claims never need `step = 0`, which `range` rejects and
which the calls below turn into `Err.stepZero` beforehand), and the ceiling
of `stop / step` for a positive step. -/
def pyRangeLen (stop : Nat) (step : Int) : Nat :=
  if 0 < step then (stop + step.toNat - 1) / step.toNat else 0

/-- The start indices produced by `range(0, stop, step)`. -/
def pyStarts (stop : Nat) (step : Int) : List Nat :=
  (List.range (pyRangeLen stop step)).map (fun i => i * step.toNat)

/-- Slice assignment `out[start:start+len(vals)] = vals` on a 1-D array;
in the chunked-evaluation loop `vals` always has exactly the length of the
addressed slice. -/
def setSlice (out : List RVal) (start : Nat) (vals : List RVal) : List RVal :=
  out.take start ++ vals ++ out.drop (start + vals.length)

/-- The body of the chunked-evaluation loop shared by both interpolants:
`out = np.zeros(P)` followed by
`for start in range(0, P, chunk_size): out[start:stop] = self(x[start:stop], chunk_size=None)`,
where `body` is the recursive call with chunking disabled.  An exception in
a chunk propagates; otherwise the chunk's values are written into `out`. -/
def chunkLoop (body : List (List ℚ) → Except Err (List RVal)) (x : List (List ℚ)) (c : Nat) : List RVal → List Nat → Except Err (List RVal)
  | out, [] => .ok out
  | out, start :: rest =>
    match body ((x.drop start).take c) with
    | .error e => .error e
    | .ok vals => chunkLoop body x c (setSlice out start vals) rest

/-- Translation of the `RBFInterpolant` state set at the end of `__init__`:
observation points, kernel, polynomial order, shape parameter, the two
coefficient vectors produced by the saddle-point solve, the exponent set and
the extrapolation flag. -/
structure RBFInterpolant where
  y : List (List ℚ)
  phi : Kernel
  order : Int
  eps : ℚ
  phi_coeff : List ℚ
  poly_coeff : List ℚ
  pwr : List (List Nat)
  extrapolate : Bool

/-- Translation of `RBFInterpolant.__init__`: validate the shapes of `y`,
`d` and `sigma`, form `K = phi(y, y, eps) + diag(sigma**2)`, compute the
exponent set, reject a monomial count exceeding the observation count
(`InsufficientDataError`), then solve the partitioned saddle-point system
for the coefficient pair and store the state. -/
def RBFInterpolant.init (ext : Ext) (y : List (List ℚ)) (d : List ℚ) (sigma : SigmaArg) (eps : ℚ) (phi : Kernel) (order : Int) (extrapolate : Bool) : Except Err RBFInterpolant :=
  if ¬ mat2dOk y then .error .shapeMismatch
  else if ¬ (d.length == y.length) then .error .shapeMismatch
  else if ¬ sigmaOk sigma y.length then .error .shapeMismatch
  else
    let sig := sigmaBroadcast sigma y.length
    let K := addDiag (kermat phi eps y y none) (sig.map (fun q => q * q))
    let pwr := powers order (cols y)
    if pwr.length > y.length then .error .insufficientData
    else
      let P := monmat ext y pwr none
      let z := List.replicate pwr.length (0 : ℚ)
      let ab := ext.psolve K P d z
      .ok ⟨y, phi, order, eps, ab.1, ab.2, pwr, extrapolate⟩

/-- One output entry of `RBFInterpolant.__call__` for one target point:
`K(x_i, y)·phi_coeff + P(x_i)·poly_coeff`. -/
def globalRow (ext : Ext) (s : RBFInterpolant) (diff : Option (List Nat)) (xi : List ℚ) : ℚ :=
  dotq (s.y.map (fun yj => s.phi.eval s.eps xi yj diff)) s.phi_coeff
    + dotq (s.pwr.map (fun m => ext.mono xi m diff)) s.poly_coeff

/-- The extrapolation mask `out[~_in_hull(x, y)] = np.nan`: entries of `out`
whose target is outside the hull are overwritten with the sentinel. -/
def globalMask (delaunay : List (List ℚ) → List ℚ → Bool) (x hull : List (List ℚ)) (out : List RVal) : List RVal :=
  List.zipWith (fun inh v => if inh then v else RVal.nan) (in_hull delaunay x hull) out

/-- The unchunked branch of `RBFInterpolant.__call__` (the recursive call
with `chunk_size=None`): re-validate the target shape, compute
`K.dot(phi_coeff) + P.dot(poly_coeff)` row by row, and apply the
extrapolation mask when `extrapolate` is false. -/
def globalEvalBody (ext : Ext) (s : RBFInterpolant) (diff : Option (List Nat)) (x : List (List ℚ)) : Except Err (List RVal) :=
  if ¬ isMat x (cols s.y) then .error .shapeMismatch
  else
    let out := x.map (fun xi => RVal.val (globalRow ext s diff xi))
    .ok (if s.extrapolate then out else globalMask ext.delaunay x s.y out)

/-- Translation of `RBFInterpolant.__call__`: validate the target shape;
with chunking enabled, fill a zero output array chunk by chunk through the
recursive unchunked call; with chunking disabled evaluate directly.  The
method assigns no attribute of `self`, so the state component of the result
is the input state in every branch. -/
def RBFInterpolant.call (ext : Ext) (s : RBFInterpolant) (x : List (List ℚ)) (diff : Option (List Nat)) (chunk_size : Option Int) : RBFInterpolant × Except Err (List RVal) :=
  if ¬ isMat x (cols s.y) then (s, .error .shapeMismatch)
  else
    match chunk_size with
    | some c =>
      if c = 0 then (s, .error .stepZero)
      else (s, chunkLoop (globalEvalBody ext s diff) x c.toNat (List.replicate x.length (RVal.val 0)) (pyStarts x.length c))
    | none => (s, globalEvalBody ext s diff x)

/-- Modelled from the spec: building the spatial index (`KDTree(y)`) retains
the observation point set; queries against it are the abstract collaborator
`Ext.query`. -/
def kdtree (y : List (List ℚ)) : List (List ℚ) := y

/-- Translation of the `NearestRBFInterpolant` state set at the end of
`__init__`: the raw inputs plus the spatial index built over `y`. -/
structure NearestRBFInterpolant where
  y : List (List ℚ)
  d : List ℚ
  sigma : List ℚ
  k : Nat
  eps : ℚ
  phi : Kernel
  order : Int
  tree : List (List ℚ)

/-- Translation of `NearestRBFInterpolant.__init__`: validate the shapes of
`y`, `d` and `sigma`, reject sparse-support kernels
(`ConfigurationError`), build the spatial index, and store all inputs.  No
local system is assembled and the polynomial order is not checked here. -/
def NearestRBFInterpolant.init (y : List (List ℚ)) (d : List ℚ) (sigma : SigmaArg) (k : Nat) (eps : ℚ) (phi : Kernel) (order : Int) : Except Err NearestRBFInterpolant :=
  if ¬ mat2dOk y then .error .shapeMismatch
  else if ¬ (d.length == y.length) then .error .shapeMismatch
  else if ¬ sigmaOk sigma y.length then .error .shapeMismatch
  else if phi.sparse then .error .config
  else .ok ⟨y, d, sigmaBroadcast sigma y.length, k, eps, phi, order, kdtree y⟩

/-- One output entry of `NearestRBFInterpolant.__call__` for one target
point: query the spatial index for the `k` nearest observations, assemble
the local `(k+M) × (k+M)` saddle-point system over those neighbors (kernel
block with `sigma²` on its diagonal, monomial block and its transpose, zero
block, right-hand side of neighbor values and `M` zeros), solve it, and
combine the local coefficients with the kernel and monomials at the target. -/
def nearestRow (ext : Ext) (s : NearestRBFInterpolant) (pwr : List (List Nat)) (diff : Option (List Nat)) (xi : List ℚ) : RVal :=
  let nbr := ext.query s.tree s.k xi
  let ynbr := nbr.map (fun j => s.y.getD j [])
  let K := addDiag (kermat s.phi s.eps ynbr ynbr none) (nbr.map (fun j => (s.sigma.getD j 0) * (s.sigma.getD j 0)))
  let P := ynbr.map (fun yi => pwr.map (fun m => ext.mono yi m none))
  let Pt := (List.range pwr.length).map (fun m => P.map (fun row => row.getD m 0))
  let Z := pwr.map (fun _ => pwr.map (fun _ => (0 : ℚ)))
  let LHS := List.zipWith (fun a b => a ++ b) K P ++ List.zipWith (fun a b => a ++ b) Pt Z
  let rhs := nbr.map (fun j => s.d.getD j 0) ++ pwr.map (fun _ => (0 : ℚ))
  let coeff := ext.linsolve LHS rhs
  let phi_coeff := coeff.take s.k
  let poly_coeff := coeff.drop s.k
  RVal.val (dotq (ynbr.map (fun yj => s.phi.eval s.eps xi yj diff)) phi_coeff
    + dotq (pwr.map (fun m => ext.mono xi m diff)) poly_coeff)

/-- The unchunked branch of `NearestRBFInterpolant.__call__`: re-validate
the target shape, compute the exponent set, fail with
`InsufficientDataError` when the monomial count exceeds `k` (before the
spatial index is queried), otherwise evaluate every target through its own
local system. -/
def nearestEvalBody (ext : Ext) (s : NearestRBFInterpolant) (diff : Option (List Nat)) (x : List (List ℚ)) : Except Err (List RVal) :=
  if ¬ isMat x (cols s.y) then .error .shapeMismatch
  else
    let pwr := powers s.order (cols s.y)
    if pwr.length > s.k then .error .insufficientData
    else .ok (x.map (fun xi => nearestRow ext s pwr diff xi))

/-- Translation of `NearestRBFInterpolant.__call__`: validate the target
shape; with chunking enabled, fill a zero output array chunk by chunk
through the recursive unchunked call; with chunking disabled evaluate
directly.  The method assigns no attribute of `self`. -/
def NearestRBFInterpolant.call (ext : Ext) (s : NearestRBFInterpolant) (x : List (List ℚ)) (diff : Option (List Nat)) (chunk_size : Option Int) : NearestRBFInterpolant × Except Err (List RVal) :=
  if ¬ isMat x (cols s.y) then (s, .error .shapeMismatch)
  else
    match chunk_size with
    | some c =>
      if c = 0 then (s, .error .stepZero)
      else (s, chunkLoop (nearestEvalBody ext s diff) x c.toNat (List.replicate x.length (RVal.val 0)) (pyStarts x.length c))
    | none => (s, nearestEvalBody ext s diff x)

/-- Trivial concrete instantiation of the external collaborators, used to
evaluate the embedding at concrete inputs. -/
def extTriv : Ext :=
  ⟨fun _ _ _ => 0, fun _ _ => false, fun _ _ _ _ => ([], []), fun _ _ => [], fun _ _ _ => []⟩

/-- A concrete dense-support kernel (not in the sparse-support family). -/
def kerTriv : Kernel := ⟨false, fun _ _ _ _ => 0⟩

/-- A concrete sparse-support kernel (a `SparseRBF` instance). -/
def kerSparse : Kernel := ⟨true, fun _ _ _ _ => 0⟩

deriving instance DecidableEq for Except

/-- Per-target value of the unchunked global evaluation, mask included. -/
def globalPoint (ext : Ext) (s : RBFInterpolant) (diff : Option (List Nat)) (xi : List ℚ) : RVal :=
  if s.extrapolate then RVal.val (globalRow ext s diff xi)
  else if pointInHull ext.delaunay (cols s.y) s.y xi then RVal.val (globalRow ext s diff xi)
  else RVal.nan

/-- A concrete Global Interpolant state over 1-D observations `{0, 1, 2}`. -/
def gTriv : RBFInterpolant := ⟨[[0], [1], [2]], kerTriv, 1, 1, [1, 2, 3], [4, 5], powers 1 1, false⟩

/-- A concrete Local Interpolant state with `M = 2 ≤ k = 3`. -/
def nTriv : NearestRBFInterpolant :=
  ⟨[[0], [1], [2]], [0, 1, 2], [0, 0, 0], 3, 1, kerTriv, 1, [[0], [1], [2]]⟩

/-- A concrete Local Interpolant state with `M = 2 > k = 1` (order 1 in one
dimension gives two monomials but only one neighbor is used). -/
def nSmallK : NearestRBFInterpolant := ⟨[[0], [1]], [0, 0], [0, 0], 1, 1, kerTriv, 1, [[0], [1]]⟩

/-- Modelled from the spec (§4.3 reference definition): the minimum of a
nonempty list of observation values (`min(y)`); `0` for the empty list,
which the reference never uses. -/
def specMin : List ℚ → ℚ
  | [] => 0
  | a :: l => l.foldl min a

/-- Modelled from the spec (§4.3 reference definition): the maximum of a
nonempty list of observation values (`max(y)`). -/
def specMax : List ℚ → ℚ
  | [] => 0
  | a :: l => l.foldl max a

/-- Modelled from the spec (§4.3 reference definition): for `D = 1`,
hull membership is the closed interval `[min(y), max(y)]`, endpoints
included. -/
def specInterval1D (ys : List ℚ) (q : ℚ) : Bool := decide (specMin ys ≤ q ∧ q ≤ specMax ys)

/-- A Global Interpolant over the 1-D observations `{0, 1, 2}` with
extrapolation disabled and arbitrary kernel, shape parameter, coefficient
vectors and exponent set. -/
def hull012 (ker : Kernel) (eps : ℚ) (a b : List ℚ) (pwr : List (List Nat)) : RBFInterpolant :=
  ⟨[[0], [1], [2]], ker, 1, eps, a, b, pwr, false⟩

lemma isMat_iff {x : List (List ℚ)} {D : Nat} : isMat x D = true ↔ ∀ r ∈ x, r.length = D := by
  simp [isMat, List.all_eq_true]

lemma isMat_slice {x : List (List ℚ)} {D : Nat} (n c : Nat) (h : isMat x D = true) :
    isMat ((x.drop n).take c) D = true :=
  isMat_iff.mpr fun r hr =>
    isMat_iff.mp h r (((List.take_sublist _ _).trans (List.drop_sublist _ _)).subset hr)

lemma ceil_mul_ge (P c : Nat) (hc : 0 < c) : P ≤ ((P + c - 1) / c) * c := by
  have h1 := Nat.div_add_mod (P + c - 1) c
  have h2 : (P + c - 1) % c < c := Nat.mod_lt _ hc
  rw [Nat.mul_comm]
  generalize hq : c * ((P + c - 1) / c) = t at h1 ⊢
  omega

lemma pyRangeLen_mul_ge (P : Nat) (c : Int) (hc : 0 < c) : P ≤ pyRangeLen P c * c.toNat := by
  unfold pyRangeLen
  rw [if_pos hc]
  exact ceil_mul_ge P c.toNat (by omega)

lemma pyRangeLen_pos {P : Nat} {c : Int} (hP : 0 < P) (hc : 0 < c) : 0 < pyRangeLen P c := by
  have h := pyRangeLen_mul_ge P c hc
  rcases Nat.eq_zero_or_pos (pyRangeLen P c) with h0 | h0
  · rw [h0, Nat.zero_mul] at h
    omega
  · exact h0

lemma pyStarts_nonempty {P : Nat} {c : Int} (hP : 0 < P) (hc : 0 < c) :
    ∃ s rest, pyStarts P c = s :: rest := by
  have h := pyRangeLen_pos hP hc
  cases hn : pyRangeLen P c with
  | zero => omega
  | succ m =>
    exact ⟨0 * c.toNat, (List.map Nat.succ (List.range m)).map (fun i => i * c.toNat), by
      unfold pyStarts
      rw [hn, List.range_succ_eq_map, List.map_cons]⟩

lemma setSlice_step (x : List (List ℚ)) (g : List ℚ → RVal) (s0 c : Nat) :
    setSlice ((x.take s0).map g ++ List.replicate (x.length - s0) (RVal.val 0)) s0
        (((x.drop s0).take c).map g)
      = (x.take (s0 + c)).map g ++ List.replicate (x.length - (s0 + c)) (RVal.val 0) := by
  rcases Nat.le_total s0 x.length with hle | hge
  · have hA : ((x.take s0).map g).length = s0 := by
      simp [List.length_take]
      omega
    have hL : (((x.drop s0).take c).map g).length = min c (x.length - s0) := by
      simp [List.length_take, List.length_drop]
    unfold setSlice
    rw [List.take_left' hA, hL]
    have hdrop : ((x.take s0).map g ++ List.replicate (x.length - s0) (RVal.val 0)).drop
          (s0 + min c (x.length - s0))
        = List.replicate (x.length - s0 - min c (x.length - s0)) (RVal.val 0) := by
      rw [show s0 + min c (x.length - s0) = ((x.take s0).map g).length + min c (x.length - s0) by
        rw [hA]]
      rw [List.drop_append, List.drop_replicate]
    rw [hdrop, List.take_add, List.map_append, List.append_assoc]
    have hcnt : x.length - s0 - min c (x.length - s0) = x.length - (s0 + c) := by omega
    rw [hcnt]
    simp [List.append_assoc]
  · have hx1 : x.take s0 = x := List.take_of_length_le hge
    have hx2 : x.drop s0 = [] := List.drop_eq_nil_of_le hge
    have hrep : x.length - s0 = 0 := Nat.sub_eq_zero_of_le hge
    unfold setSlice
    rw [hx1, hx2, hrep]
    simp only [List.take_nil, List.map_nil, List.replicate_zero, List.append_nil, List.nil_append,
      List.length_nil, Nat.add_zero]
    rw [List.take_of_length_le (by simpa using hge), List.drop_eq_nil_of_le (by simpa using hge),
      List.take_of_length_le (le_trans hge (Nat.le_add_right _ _)),
      Nat.sub_eq_zero_of_le (le_trans hge (Nat.le_add_right _ _))]
    simp

lemma chunkLoop_map (body : List (List ℚ) → Except Err (List RVal)) (x : List (List ℚ)) (c : Nat)
    (g : List ℚ → RVal)
    (hbody : ∀ s0 : Nat, body ((x.drop s0).take c) = .ok (((x.drop s0).take c).map g)) :
    ∀ n s0 : Nat, x.length ≤ s0 + n * c →
      chunkLoop body x c ((x.take s0).map g ++ List.replicate (x.length - s0) (RVal.val 0))
        ((List.range n).map (fun i => s0 + i * c)) = .ok (x.map g) := by
  intro n
  induction n with
  | zero =>
    intro s0 h
    have hs : x.length ≤ s0 := by simpa using h
    simp [chunkLoop, List.take_of_length_le hs, Nat.sub_eq_zero_of_le hs]
  | succ m ih =>
    intro s0 h
    have hrange : (List.range (m + 1)).map (fun i => s0 + i * c)
        = s0 :: (List.range m).map (fun i => s0 + c + i * c) := by
      rw [List.range_succ_eq_map, List.map_cons, List.map_map]
      refine congrArg₂ _ (by simp) (List.map_congr_left fun a _ => ?_)
      simp [Function.comp, Nat.succ_mul]
      ring
    rw [hrange]
    simp only [chunkLoop, hbody s0]
    rw [setSlice_step]
    apply ih
    have hmul : (m + 1) * c = m * c + c := by ring
    omega

lemma chunkLoop_top (body : List (List ℚ) → Except Err (List RVal)) (x : List (List ℚ)) (c : Int)
    (hc : 0 < c) (g : List ℚ → RVal)
    (hbody : ∀ s0 : Nat, body ((x.drop s0).take c.toNat) = .ok (((x.drop s0).take c.toNat).map g)) :
    chunkLoop body x c.toNat (List.replicate x.length (RVal.val 0)) (pyStarts x.length c)
      = .ok (x.map g) := by
  have h0 := chunkLoop_map body x c.toNat g hbody (pyRangeLen x.length c) 0
    (by simpa using pyRangeLen_mul_ge x.length c hc)
  simpa [pyStarts] using h0

lemma chunkLoop_error (body : List (List ℚ) → Except Err (List RVal)) (x : List (List ℚ))
    (c : Nat) (e : Err) (out : List RVal) (s0 : Nat) (rest : List Nat)
    (hb : body ((x.drop s0).take c) = .error e) :
    chunkLoop body x c out (s0 :: rest) = .error e := by
  simp [chunkLoop, hb]

lemma in_hull_map (delaunay : List (List ℚ) → List ℚ → Bool) (p hull : List (List ℚ)) (D : Nat)
    (hp : ∀ r ∈ p, r.length = D) :
    in_hull delaunay p hull = p.map (fun pt => pointInHull delaunay D hull pt) := by
  cases p with
  | nil => simp [in_hull]
  | cons r t =>
    have hcols : cols (r :: t) = D := by simp [cols, hp r (by simp)]
    by_cases h1 : hull.length ≤ D
    · simp [in_hull, pointInHull, hcols, h1]
    · by_cases h2 : 2 ≤ D
      · simp [in_hull, pointInHull, hcols, h1, h2]
      · simp [in_hull, pointInHull, hcols, h1, h2]

lemma globalEvalBody_map (ext : Ext) (s : RBFInterpolant) (diff : Option (List Nat))
    (x : List (List ℚ)) (hx : isMat x (cols s.y) = true) :
    globalEvalBody ext s diff x = .ok (x.map (fun xi => globalPoint ext s diff xi)) := by
  unfold globalEvalBody
  rw [if_neg (by simp [hx])]
  cases hE : s.extrapolate with
  | true => simp [globalPoint, hE]
  | false =>
    simp only [Bool.false_eq_true, if_false]
    unfold globalMask
    rw [in_hull_map ext.delaunay x s.y (cols s.y) (isMat_iff.mp hx)]
    rw [List.zipWith_map, List.zipWith_same]
    refine congrArg _ (List.map_congr_left fun a _ => ?_)
    simp [globalPoint, hE]

lemma global_call_chunked (ext : Ext) (s : RBFInterpolant) (x : List (List ℚ))
    (diff : Option (List Nat)) (c : Int) (hc : 0 < c) :
    (RBFInterpolant.call ext s x diff (some c)).2 = (RBFInterpolant.call ext s x diff none).2 := by
  unfold RBFInterpolant.call
  by_cases hx : isMat x (cols s.y) = true
  · rw [if_neg (by simp [hx])]
    simp only
    rw [if_neg (by omega)]
    rw [chunkLoop_top (globalEvalBody ext s diff) x c hc (globalPoint ext s diff)
      (fun s0 => globalEvalBody_map ext s diff _ (isMat_slice s0 c.toNat hx))]
    rw [globalEvalBody_map ext s diff x hx]
    simp [hx]
  · simp [hx]

lemma nearestEvalBody_map (ext : Ext) (s : NearestRBFInterpolant) (diff : Option (List Nat))
    (x : List (List ℚ)) (hx : isMat x (cols s.y) = true)
    (hM : (powers s.order (cols s.y)).length ≤ s.k) :
    nearestEvalBody ext s diff x
      = .ok (x.map (fun xi => nearestRow ext s (powers s.order (cols s.y)) diff xi)) := by
  unfold nearestEvalBody
  rw [if_neg (by simp [hx])]
  simp only
  rw [if_neg (by omega)]

lemma nearestEvalBody_err (ext : Ext) (s : NearestRBFInterpolant) (diff : Option (List Nat))
    (x : List (List ℚ)) (hx : isMat x (cols s.y) = true)
    (hM : (powers s.order (cols s.y)).length > s.k) :
    nearestEvalBody ext s diff x = .error .insufficientData := by
  unfold nearestEvalBody
  rw [if_neg (by simp [hx])]
  simp only
  rw [if_pos (by omega)]

lemma nearest_call_chunked_of_le (ext : Ext) (s : NearestRBFInterpolant) (x : List (List ℚ))
    (diff : Option (List Nat)) (c : Int) (hc : 0 < c)
    (hM : (powers s.order (cols s.y)).length ≤ s.k) :
    (NearestRBFInterpolant.call ext s x diff (some c)).2
      = (NearestRBFInterpolant.call ext s x diff none).2 := by
  unfold NearestRBFInterpolant.call
  by_cases hx : isMat x (cols s.y) = true
  · rw [if_neg (by simp [hx])]
    simp only
    rw [if_neg (by omega)]
    rw [chunkLoop_top (nearestEvalBody ext s diff) x c hc
      (fun xi => nearestRow ext s (powers s.order (cols s.y)) diff xi)
      (fun s0 => nearestEvalBody_map ext s diff _ (isMat_slice s0 c.toNat hx) hM)]
    rw [nearestEvalBody_map ext s diff x hx hM]
    simp [hx]
  · simp [hx]

lemma nearest_call_none_err (ext : Ext) (s : NearestRBFInterpolant) (x : List (List ℚ))
    (diff : Option (List Nat)) (hx : isMat x (cols s.y) = true)
    (hM : (powers s.order (cols s.y)).length > s.k) :
    (NearestRBFInterpolant.call ext s x diff none).2 = .error .insufficientData := by
  unfold NearestRBFInterpolant.call
  rw [if_neg (by simp [hx])]
  exact nearestEvalBody_err ext s diff x hx hM

lemma nearest_call_chunked_err (ext : Ext) (s : NearestRBFInterpolant) (x : List (List ℚ))
    (diff : Option (List Nat)) (c : Int) (hc : 0 < c) (hne : x ≠ [])
    (hx : isMat x (cols s.y) = true)
    (hM : (powers s.order (cols s.y)).length > s.k) :
    (NearestRBFInterpolant.call ext s x diff (some c)).2 = .error .insufficientData := by
  unfold NearestRBFInterpolant.call
  rw [if_neg (by simp [hx])]
  simp only
  rw [if_neg (by omega)]
  obtain ⟨s0, rest, hst⟩ := pyStarts_nonempty (List.length_pos.mpr hne) hc
  rw [hst]
  exact chunkLoop_error _ x c.toNat _ _ s0 rest
    (nearestEvalBody_err ext s diff _ (isMat_slice s0 c.toNat hx) hM)

lemma pyStarts_zero (c : Int) : pyStarts 0 c = [] := by
  unfold pyStarts pyRangeLen
  split
  · rw [Nat.div_eq_of_lt (by omega)]
    rfl
  · rfl

/-- C1: for every Global Interpolant construction in which the monomial
count `M = M(D, order)` exceeds the number of observations `N`,
construction fails with `InsufficientDataError`.  The result is this error
for every behaviour of the partitioned-solver collaborator (`ext` is
universally quantified), so the saddle-point system is never solved and no
coefficients are produced. -/
theorem global_init_insufficient_data (ext : Ext) (y : List (List ℚ)) (d : List ℚ)
    (sigma : SigmaArg) (eps : ℚ) (phi : Kernel) (order : Int) (extrap : Bool)
    (hy : mat2dOk y = true) (hd : d.length = y.length) (hs : sigmaOk sigma y.length = true)
    (hM : (powers order (cols y)).length > y.length) :
    RBFInterpolant.init ext y d sigma eps phi order extrap = .error .insufficientData := by
  unfold RBFInterpolant.init
  rw [if_neg (by simp [hy]), if_neg (by simp [hd]), if_neg (by simp [hs])]
  simp only
  rw [if_pos (by omega)]

/-- Witness for `global_init_insufficient_data`: `y = [[0],[1]]`,
`d = [0,0]`, `order = 2`, so `M = 3 > N = 2`. -/
theorem global_init_insufficient_data_witness :
    mat2dOk [[(0 : ℚ)], [1]] = true
    ∧ [(0 : ℚ), 0].length = [[(0 : ℚ)], [1]].length
    ∧ sigmaOk (Sum.inl 0) [[(0 : ℚ)], [1]].length = true
    ∧ (powers 2 (cols [[(0 : ℚ)], [1]])).length > [[(0 : ℚ)], [1]].length
    ∧ RBFInterpolant.init extTriv [[0], [1]] [0, 0] (Sum.inl 0) 1 kerTriv 2 true
        = .error .insufficientData :=
  ⟨by decide, by decide, by decide, by decide,
    global_init_insufficient_data extTriv [[0], [1]] [0, 0] (Sum.inl 0) 1 kerTriv 2 true
      (by decide) (by decide) (by decide) (by decide)⟩

/-- C4: constructing the Local Interpolant with a sparse-support kernel
fails with a `ConfigurationError`; with any kernel outside that family the
check passes and construction proceeds to build the spatial index over the
observation points (the stored `tree` is `kdtree y`) and store the inputs. -/
theorem nearest_init_sparse_kernel (y : List (List ℚ)) (d : List ℚ) (sigma : SigmaArg)
    (k : Nat) (eps : ℚ) (phi : Kernel) (order : Int)
    (hy : mat2dOk y = true) (hd : d.length = y.length) (hs : sigmaOk sigma y.length = true) :
    (phi.sparse = true →
      NearestRBFInterpolant.init y d sigma k eps phi order = .error .config)
    ∧ (phi.sparse = false →
      NearestRBFInterpolant.init y d sigma k eps phi order
        = .ok ⟨y, d, sigmaBroadcast sigma y.length, k, eps, phi, order, kdtree y⟩) := by
  unfold NearestRBFInterpolant.init
  rw [if_neg (by simp [hy]), if_neg (by simp [hd]), if_neg (by simp [hs])]
  constructor
  · intro hp
    rw [if_pos hp]
  · intro hp
    rw [if_neg (by simp [hp])]

/-- Witness for `nearest_init_sparse_kernel`: a sparse kernel is rejected
with the configuration error, a dense kernel yields the constructed state
with the spatial index over `y`. -/
theorem nearest_init_sparse_kernel_witness :
    mat2dOk [[(0 : ℚ)], [1]] = true
    ∧ NearestRBFInterpolant.init [[(0 : ℚ)], [1]] [0, 0] (Sum.inl 0) 20 1 kerSparse 1
        = .error .config
    ∧ NearestRBFInterpolant.init [[(0 : ℚ)], [1]] [0, 0] (Sum.inl 0) 20 1 kerTriv 1
        = .ok ⟨[[(0 : ℚ)], [1]], [0, 0], sigmaBroadcast (Sum.inl 0) [[(0 : ℚ)], [1]].length, 20, 1,
            kerTriv, 1, kdtree [[(0 : ℚ)], [1]]⟩ :=
  ⟨by decide,
    (nearest_init_sparse_kernel [[(0 : ℚ)], [1]] [0, 0] (Sum.inl 0) 20 1 kerSparse 1
      (by decide) (by decide) (by decide)).1 rfl,
    (nearest_init_sparse_kernel [[(0 : ℚ)], [1]] [0, 0] (Sum.inl 0) 20 1 kerTriv 1
      (by decide) (by decide) (by decide)).2 rfl⟩

/-- C8: evaluation leaves every stored field of the interpolant unchanged:
for both interpolant types and every argument combination (valid or not,
chunked or not), the state component of the result of `__call__` is exactly
the input state — the embedded method bodies only read the construction
state and perform no field assignment. -/
theorem call_leaves_state_unchanged :
    (∀ (ext : Ext) (s : RBFInterpolant) (x : List (List ℚ)) (diff : Option (List Nat))
        (cs : Option Int), (RBFInterpolant.call ext s x diff cs).1 = s)
    ∧ (∀ (ext : Ext) (s : NearestRBFInterpolant) (x : List (List ℚ)) (diff : Option (List Nat))
        (cs : Option Int), (NearestRBFInterpolant.call ext s x diff cs).1 = s) := by
  constructor
  · intro ext s x diff cs
    unfold RBFInterpolant.call
    split
    · rfl
    · split
      · split <;> rfl
      · rfl
  · intro ext s x diff cs
    unfold NearestRBFInterpolant.call
    split
    · rfl
    · split
      · split <;> rfl
      · rfl

/-- C9: with an empty target set and chunking enabled with any positive
chunk size (the defaults 1000 and 100 included), both interpolant types
return an empty output array and raise no error — in particular a Local
Interpolant state with `M > k` does not raise `InsufficientDataError`,
because the chunk loop body containing the check is never entered. -/
theorem empty_targets_chunked_ok (ext : Ext) (s : RBFInterpolant)
    (s2 : NearestRBFInterpolant) (diff : Option (List Nat)) (c : Int) (hc : 0 < c) :
    (RBFInterpolant.call ext s [] diff (some c)).2 = .ok []
    ∧ (NearestRBFInterpolant.call ext s2 [] diff (some c)).2 = .ok [] := by
  constructor
  · unfold RBFInterpolant.call
    rw [if_neg (by simp [isMat])]
    simp only
    rw [if_neg (by omega)]
    simp [pyStarts_zero, chunkLoop]
  · unfold NearestRBFInterpolant.call
    rw [if_neg (by simp [isMat])]
    simp only
    rw [if_neg (by omega)]
    simp [pyStarts_zero, chunkLoop]

/-- Witness for `empty_targets_chunked_ok` at the default chunk sizes 1000
(global) and 100 (local), the local state having `M = 2 > k = 1`. -/
theorem empty_targets_chunked_ok_witness :
    ((0 : Int) < 1000) ∧ ((0 : Int) < 100)
    ∧ (powers nSmallK.order (cols nSmallK.y)).length > nSmallK.k
    ∧ (RBFInterpolant.call extTriv gTriv [] none (some 1000)).2 = .ok []
    ∧ (NearestRBFInterpolant.call extTriv nSmallK [] none (some 100)).2 = .ok [] :=
  ⟨by decide, by decide, by decide,
    (empty_targets_chunked_ok extTriv gTriv nSmallK none 1000 (by decide)).1,
    (empty_targets_chunked_ok extTriv gTriv nSmallK none 100 (by decide)).2⟩

/-- C10: a negative chunk size on a valid non-empty target set of `P`
points makes the chunk loop's range empty, so both interpolant types
silently return the zero-initialised output array of length `P` — for every
kernel, coefficient vector and collaborator behaviour, i.e. without
evaluating the kernel or the polynomial at all. -/
theorem negative_chunk_size_zeros (ext : Ext) (s : RBFInterpolant)
    (s2 : NearestRBFInterpolant) (x x2 : List (List ℚ)) (diff : Option (List Nat)) (c : Int)
    (hc : c < 0) (hx : isMat x (cols s.y) = true) (hx2 : isMat x2 (cols s2.y) = true)
    (_hP : 0 < x.length) (_hP2 : 0 < x2.length) :
    (RBFInterpolant.call ext s x diff (some c)).2 = .ok (List.replicate x.length (RVal.val 0))
    ∧ (NearestRBFInterpolant.call ext s2 x2 diff (some c)).2
        = .ok (List.replicate x2.length (RVal.val 0)) := by
  have hstarts : ∀ P : Nat, pyStarts P c = [] := by
    intro P
    unfold pyStarts pyRangeLen
    rw [if_neg (by omega)]
    rfl
  constructor
  · unfold RBFInterpolant.call
    rw [if_neg (by simp [hx])]
    simp only
    rw [if_neg (by omega), hstarts]
    rfl
  · unfold NearestRBFInterpolant.call
    rw [if_neg (by simp [hx2])]
    simp only
    rw [if_neg (by omega), hstarts]
    rfl

/-- Witness for `negative_chunk_size_zeros` at chunk size `-3` on
three-point target sets. -/
theorem negative_chunk_size_zeros_witness :
    ((-3 : Int) < 0)
    ∧ isMat [[(5 : ℚ)], [6], [7]] (cols gTriv.y) = true
    ∧ isMat [[(5 : ℚ)], [6], [7]] (cols nTriv.y) = true
    ∧ (RBFInterpolant.call extTriv gTriv [[5], [6], [7]] none (some (-3))).2
        = .ok (List.replicate 3 (RVal.val 0))
    ∧ (NearestRBFInterpolant.call extTriv nTriv [[5], [6], [7]] none (some (-3))).2
        = .ok (List.replicate 3 (RVal.val 0)) :=
  ⟨by decide, by decide, by decide,
    (negative_chunk_size_zeros extTriv gTriv nTriv [[5], [6], [7]] [[5], [6], [7]] none (-3)
      (by decide) (by decide) (by decide) (by decide) (by decide)).1,
    (negative_chunk_size_zeros extTriv gTriv nTriv [[5], [6], [7]] [[5], [6], [7]] none (-3)
      (by decide) (by decide) (by decide) (by decide) (by decide)).2⟩

lemma flatten_singletons (hull : List (List ℚ)) (h : ∀ r ∈ hull, r.length = 1) :
    hull.flatten = hull.map (fun r => r.headD 0) := by
  induction hull with
  | nil => rfl
  | cons r t ih =>
    obtain ⟨a, ha⟩ := List.length_eq_one.mp (h r (by simp))
    rw [ha]
    simp only [List.flatten_cons, List.map_cons]
    rw [ih (fun r hr => h r (by simp [hr]))]
    rfl

lemma npmin_eq_specMin (m : List (List ℚ)) : npmin m = specMin m.flatten := rfl

lemma npmax_eq_specMax (m : List (List ℚ)) : npmax m = specMax m.flatten := rfl

/-- C5: the convex-hull membership test agrees with the spec's reference
definition: when the observation set has fewer than `D + 1` points, every
query point is classified outside the hull; when `D = 1` and there are at
least two observation points, a query point is inside the hull exactly when
it lies in the closed interval `[min y, max y]` of the observation values
(endpoints included). -/
theorem in_hull_reference (delaunay : List (List ℚ) → List ℚ → Bool)
    (p hull : List (List ℚ)) (D : Nat) (hp : ∀ r ∈ p, r.length = D) :
    (hull.length < D + 1 → in_hull delaunay p hull = List.replicate p.length false)
    ∧ (D = 1 → 2 ≤ hull.length → (∀ r ∈ hull, r.length = 1) →
        in_hull delaunay p hull
          = p.map (fun pt => specInterval1D (hull.map (fun r => r.headD 0)) (pt.headD 0))) := by
  constructor
  · intro hlen
    rw [in_hull_map delaunay p hull D hp]
    have hall : ∀ pt : List ℚ, pointInHull delaunay D hull pt = false := by
      intro pt
      unfold pointInHull
      rw [if_pos (by omega)]
    rw [List.map_congr_left (fun a _ => hall a)]
    exact List.map_const' p false
  · intro hD h2 hones
    subst hD
    rw [in_hull_map delaunay p hull 1 hp]
    refine List.map_congr_left fun pt _ => ?_
    unfold pointInHull specInterval1D
    rw [if_neg (by omega), if_neg (by omega)]
    rw [npmin_eq_specMin, npmax_eq_specMax, flatten_singletons hull hones]

/-- Witness for `in_hull_reference`: three 1-D query points against a
single-point hull (everything outside) and against the hull `{0, 1, 2}`
(interval test: `-5` and `7` outside, `1` inside). -/
theorem in_hull_reference_witness :
    (∀ r ∈ [[(-5 : ℚ)], [7], [1]], r.length = 1)
    ∧ in_hull (fun _ _ => false) [[(-5 : ℚ)], [7], [1]] [[0]] = List.replicate 3 false
    ∧ in_hull (fun _ _ => false) [[(-5 : ℚ)], [7], [1]] [[0], [1], [2]] = [false, false, true] := by
  have h1 := (in_hull_reference (fun _ _ => false) [[(-5 : ℚ)], [7], [1]] [[0]] 1
    (by decide)).1 (by decide)
  have h2 := (in_hull_reference (fun _ _ => false) [[(-5 : ℚ)], [7], [1]] [[0], [1], [2]] 1
    (by decide)).2 rfl (by decide) (by decide)
  refine ⟨by decide, h1, ?_⟩
  rw [h2]
  decide

/-- C2 counterexample: a Local Interpolant state with `M = 2 > k = 1`
evaluated on the empty target batch with the default chunk size 100
returns an empty output successfully instead of failing with
`InsufficientDataError`. -/
theorem nearest_call_empty_counterexample :
    (powers nSmallK.order (cols nSmallK.y)).length > nSmallK.k
    ∧ (NearestRBFInterpolant.call extTriv nSmallK [] none (some 100)).2 = .ok []
    ∧ (NearestRBFInterpolant.call extTriv nSmallK [] none (some 100)).2
        ≠ .error .insufficientData :=
  ⟨by decide, rfl, by decide⟩

/-- C2 (amended): for a Local Interpolant whose monomial count `M` exceeds
the neighborhood size `k`, every evaluation call with chunking disabled,
and every call with a positive chunk size on a non-empty target batch,
fails with `InsufficientDataError`; the error is produced for every
behaviour of the spatial-index collaborator (`ext` is universally
quantified), i.e. before the spatial index is queried.  A chunked call on
an empty target batch instead returns an empty output (see the
counterexample). -/
theorem nearest_call_insufficient_data (ext : Ext) (s : NearestRBFInterpolant)
    (x : List (List ℚ)) (diff : Option (List Nat))
    (hx : isMat x (cols s.y) = true)
    (hM : (powers s.order (cols s.y)).length > s.k) :
    (NearestRBFInterpolant.call ext s x diff none).2 = .error .insufficientData
    ∧ (∀ c : Int, 0 < c → x ≠ [] →
        (NearestRBFInterpolant.call ext s x diff (some c)).2 = .error .insufficientData) :=
  ⟨nearest_call_none_err ext s x diff hx hM,
    fun c hc hne => nearest_call_chunked_err ext s x diff c hc hne hx hM⟩

/-- Witness for `nearest_call_insufficient_data` on the state with
`M = 2 > k = 1`, one target point, chunk size 100. -/
theorem nearest_call_insufficient_data_witness :
    isMat [[(5 : ℚ)]] (cols nSmallK.y) = true
    ∧ (powers nSmallK.order (cols nSmallK.y)).length > nSmallK.k
    ∧ (NearestRBFInterpolant.call extTriv nSmallK [[5]] none none).2 = .error .insufficientData
    ∧ (NearestRBFInterpolant.call extTriv nSmallK [[5]] none (some 100)).2
        = .error .insufficientData := by
  have h := nearest_call_insufficient_data extTriv nSmallK [[5]] none (by decide) (by decide)
  exact ⟨by decide, by decide, h.1, h.2 100 (by decide) (by decide)⟩

/-- C3 counterexample: constructing a Local Interpolant whose polynomial
order yields `M = 2 > k = 1` succeeds — no error is raised at
construction time. -/
theorem nearest_init_highorder_counterexample :
    (powers 1 (cols [[(0 : ℚ)], [1]])).length > 1
    ∧ NearestRBFInterpolant.init [[(0 : ℚ)], [1]] [0, 0] (Sum.inl 0) 1 1 kerTriv 1
        = .ok ⟨[[(0 : ℚ)], [1]], [0, 0], sigmaBroadcast (Sum.inl 0) 2, 1, 1, kerTriv, 1,
            kdtree [[(0 : ℚ)], [1]]⟩ :=
  ⟨by decide, rfl⟩

/-- C3 (amended): with `M > k` (and otherwise valid inputs) the Local
Interpolant is constructed successfully; the `InsufficientDataError` is
deferred to evaluation time, where it is raised by every call with chunking
disabled (and, by `nearest_call_insufficient_data`, by every chunked call
on a non-empty batch). -/
theorem nearest_insufficient_data_deferred (y : List (List ℚ)) (d : List ℚ) (sigma : SigmaArg)
    (k : Nat) (eps : ℚ) (phi : Kernel) (order : Int)
    (hy : mat2dOk y = true) (hd : d.length = y.length) (hs : sigmaOk sigma y.length = true)
    (hp : phi.sparse = false) (hM : (powers order (cols y)).length > k) :
    NearestRBFInterpolant.init y d sigma k eps phi order
      = .ok ⟨y, d, sigmaBroadcast sigma y.length, k, eps, phi, order, kdtree y⟩
    ∧ (∀ (ext : Ext) (x : List (List ℚ)) (diff : Option (List Nat)),
        isMat x (cols y) = true →
        ((⟨y, d, sigmaBroadcast sigma y.length, k, eps, phi, order, kdtree y⟩ :
            NearestRBFInterpolant).call ext x diff none).2 = .error .insufficientData) := by
  constructor
  · unfold NearestRBFInterpolant.init
    rw [if_neg (by simp [hy]), if_neg (by simp [hd]), if_neg (by simp [hs]),
      if_neg (by simp [hp])]
  · intro ext x diff hx
    exact nearest_call_none_err ext _ x diff hx hM

/-- Witness for `nearest_insufficient_data_deferred`: construction with
`M = 2 > k = 1` succeeds and the first unchunked evaluation fails. -/
theorem nearest_insufficient_data_deferred_witness :
    mat2dOk [[(0 : ℚ)], [1]] = true
    ∧ (powers 1 (cols [[(0 : ℚ)], [1]])).length > 1
    ∧ NearestRBFInterpolant.init [[(0 : ℚ)], [1]] [0, 0] (Sum.inl 0) 1 1 kerTriv 1
        = .ok ⟨[[(0 : ℚ)], [1]], [0, 0], sigmaBroadcast (Sum.inl 0) 2, 1, 1, kerTriv, 1,
            kdtree [[(0 : ℚ)], [1]]⟩
    ∧ ((⟨[[(0 : ℚ)], [1]], [0, 0], sigmaBroadcast (Sum.inl 0) 2, 1, 1, kerTriv, 1,
          kdtree [[(0 : ℚ)], [1]]⟩ : NearestRBFInterpolant).call extTriv [[5]] none none).2
        = .error .insufficientData := by
  have h := nearest_insufficient_data_deferred [[(0 : ℚ)], [1]] [0, 0] (Sum.inl 0) 1 1 kerTriv 1
    (by decide) (by decide) (by decide) rfl (by decide)
  exact ⟨by decide, by decide, h.1, h.2 extTriv [[5]] none (by decide)⟩

/-- C6 counterexample: for the Local Interpolant state with `M = 2 > k = 1`
and the empty target set, evaluating with chunk size 100 yields an empty
output while evaluating with chunking disabled raises
`InsufficientDataError`, so the two results differ. -/
theorem chunk_invariance_counterexample :
    (NearestRBFInterpolant.call extTriv nSmallK [] none (some 100)).2 = .ok []
    ∧ (NearestRBFInterpolant.call extTriv nSmallK [] none none).2 = .error .insufficientData
    ∧ (NearestRBFInterpolant.call extTriv nSmallK [] none (some 100)).2
        ≠ (NearestRBFInterpolant.call extTriv nSmallK [] none none).2 :=
  ⟨rfl, rfl, by decide⟩

/-- C6 (amended): evaluating with any positive chunk size equals evaluating
with chunking disabled: for the Global Interpolant on every target set, and
for the Local Interpolant whenever `M ≤ k` or the target set is non-empty.
The only exception, forced by the counterexample, is a Local Interpolant
with `M > k` on the empty target set, where the chunked call returns an
empty output while the unchunked call raises `InsufficientDataError`. -/
theorem chunk_invariance_amended :
    (∀ (ext : Ext) (s : RBFInterpolant) (x : List (List ℚ)) (diff : Option (List Nat))
        (c : Int), 0 < c →
        (RBFInterpolant.call ext s x diff (some c)).2 = (RBFInterpolant.call ext s x diff none).2)
    ∧ (∀ (ext : Ext) (s : NearestRBFInterpolant) (x : List (List ℚ)) (diff : Option (List Nat))
        (c : Int), 0 < c → ((powers s.order (cols s.y)).length ≤ s.k ∨ x ≠ []) →
        (NearestRBFInterpolant.call ext s x diff (some c)).2
          = (NearestRBFInterpolant.call ext s x diff none).2) := by
  constructor
  · exact fun ext s x diff c hc => global_call_chunked ext s x diff c hc
  · intro ext s x diff c hc hcase
    rcases le_or_lt (powers s.order (cols s.y)).length s.k with hM | hM
    · exact nearest_call_chunked_of_le ext s x diff c hc hM
    · rcases hcase with hM2 | hne
      · omega
      · by_cases hx : isMat x (cols s.y) = true
        · rw [nearest_call_chunked_err ext s x diff c hc hne hx hM,
            nearest_call_none_err ext s x diff hx hM]
        · unfold NearestRBFInterpolant.call
          simp [hx]

/-- Witness for `chunk_invariance_amended`: both interpolant types on a
three-point target set with chunk size 2 (which does not divide 3). -/
theorem chunk_invariance_amended_witness :
    ((0 : Int) < 2)
    ∧ (RBFInterpolant.call extTriv gTriv [[0], [1], [7]] none (some 2)).2
        = (RBFInterpolant.call extTriv gTriv [[0], [1], [7]] none none).2
    ∧ (NearestRBFInterpolant.call extTriv nTriv [[0], [1], [7]] none (some 2)).2
        = (NearestRBFInterpolant.call extTriv nTriv [[0], [1], [7]] none none).2 :=
  ⟨by decide,
    chunk_invariance_amended.1 extTriv gTriv [[0], [1], [7]] none 2 (by decide),
    chunk_invariance_amended.2 extTriv nTriv [[0], [1], [7]] none 2 (by decide)
      (Or.inl (by decide))⟩

/-- C7: with extrapolation disabled, unchunked global evaluation succeeds
and masks exactly the targets outside the convex hull: each output entry is
the not-a-number sentinel when its target is outside and the computed
kernel-plus-polynomial value when it is inside or on the boundary.
Concretely, for 1-D observations at `{0, 1, 2}` — for every kernel,
coefficient vectors and collaborator behaviour — evaluation with the
default chunk size 1000 at `-5`, `7` and `1` returns the sentinel at `-5`
and `7` and the unmasked computed value (never the sentinel) at `1`. -/
theorem global_extrapolation_mask :
    (∀ (ext : Ext) (s : RBFInterpolant) (x : List (List ℚ)) (diff : Option (List Nat)),
        s.extrapolate = false → isMat x (cols s.y) = true →
        (RBFInterpolant.call ext s x diff none).2
          = .ok (x.map (fun xi =>
              if pointInHull ext.delaunay (cols s.y) s.y xi
              then RVal.val (globalRow ext s diff xi) else RVal.nan)))
    ∧ (∀ (ext : Ext) (ker : Kernel) (eps : ℚ) (a b : List ℚ) (pwr : List (List Nat))
        (diff : Option (List Nat)),
        (RBFInterpolant.call ext (hull012 ker eps a b pwr) [[-5], [7], [1]] diff
            (some 1000)).2
          = .ok [RVal.nan, RVal.nan,
              RVal.val (globalRow ext (hull012 ker eps a b pwr) diff [1])]
        ∧ RVal.val (globalRow ext (hull012 ker eps a b pwr) diff [1]) ≠ RVal.nan) := by
  have hgen : ∀ (ext : Ext) (s : RBFInterpolant) (x : List (List ℚ))
      (diff : Option (List Nat)), s.extrapolate = false → isMat x (cols s.y) = true →
      (RBFInterpolant.call ext s x diff none).2
        = .ok (x.map (fun xi =>
            if pointInHull ext.delaunay (cols s.y) s.y xi
            then RVal.val (globalRow ext s diff xi) else RVal.nan)) := by
    intro ext s x diff hE hx
    unfold RBFInterpolant.call
    rw [if_neg (by simp [hx])]
    show globalEvalBody ext s diff x = _
    rw [globalEvalBody_map ext s diff x hx]
    refine congrArg _ (List.map_congr_left fun a _ => ?_)
    simp [globalPoint, hE]
  refine ⟨hgen, fun ext ker eps a b pwr diff => ?_⟩
  have e1 : pointInHull ext.delaunay (cols (hull012 ker eps a b pwr).y)
      (hull012 ker eps a b pwr).y [-5] = false := by
    show pointInHull ext.delaunay 1 [[0], [1], [2]] [-5] = false
    unfold pointInHull
    rw [if_neg (by decide), if_neg (by decide)]
    decide
  have e2 : pointInHull ext.delaunay (cols (hull012 ker eps a b pwr).y)
      (hull012 ker eps a b pwr).y [7] = false := by
    show pointInHull ext.delaunay 1 [[0], [1], [2]] [7] = false
    unfold pointInHull
    rw [if_neg (by decide), if_neg (by decide)]
    decide
  have e3 : pointInHull ext.delaunay (cols (hull012 ker eps a b pwr).y)
      (hull012 ker eps a b pwr).y [1] = true := by
    show pointInHull ext.delaunay 1 [[0], [1], [2]] [1] = true
    unfold pointInHull
    rw [if_neg (by decide), if_neg (by decide)]
    decide
  constructor
  · rw [global_call_chunked ext (hull012 ker eps a b pwr) [[-5], [7], [1]] diff 1000
      (by norm_num)]
    rw [hgen ext (hull012 ker eps a b pwr) [[-5], [7], [1]] diff rfl (by
      show isMat [[(-5 : ℚ)], [7], [1]] 1 = true
      decide)]
    simp [e1, e2, e3]
  · simp

/-- Witness for `global_extrapolation_mask` with all collaborators and
coefficients concrete (the trivial kernel gives the computed value `0` at
the interior point, distinct from the sentinel). -/
theorem global_extrapolation_mask_witness :
    isMat [[(1 : ℚ)]] (cols gTriv.y) = true
    ∧ (RBFInterpolant.call extTriv gTriv [[(1 : ℚ)]] none none).2
        = .ok [if pointInHull extTriv.delaunay (cols gTriv.y) gTriv.y [1]
            then RVal.val (globalRow extTriv gTriv none [1]) else RVal.nan]
    ∧ (RBFInterpolant.call extTriv
          (hull012 kerTriv 1 [1, 2, 3] [4, 5] (powers 1 1)) [[-5], [7], [1]] none
          (some 1000)).2
        = .ok [RVal.nan, RVal.nan,
            RVal.val (globalRow extTriv (hull012 kerTriv 1 [1, 2, 3] [4, 5] (powers 1 1))
              none [1])] :=
  ⟨by decide,
    global_extrapolation_mask.1 extTriv gTriv [[(1 : ℚ)]] none rfl (by decide),
    (global_extrapolation_mask.2 extTriv kerTriv 1 [1, 2, 3] [4, 5] (powers 1 1) none).1⟩

end RBF
